import Mathlib

/-!
# TMath: elementwise operators and `foreach` over ranges

A shallow embedding of `tmath.hpp`.

* A sized range (a `std::vector`, a `std::array`, or a view over one) is seen by the
  library only through `std::ranges::size` and element access, so it is embedded as the
  `List` of its elements: `ranges_size` is the length, element `i` is `xs[i]`.
* A lazy view is embedded as the list of what each element request yields.  Where the
  element operation is itself a container-with-container operator (nested operands), what a
  request yields is an `Except`: the inner operator runs, and may throw, when the element
  is requested.
* The operator macros take the operator token `_op`; here `_op` is the meaning of that token
  at the element types, exactly what overload resolution picks inside the macro's lambda.
* A thrown `std::invalid_argument` is `Except.error (Exn.invalid_argument what)`.
* Name lookup matters for `tmath::foreach` only: `tmath.foreach` is the value of a call that
  compiles, `tmath.foreach_compiles` says when it does, and `tmath.foreach_call` puts the two
  together.
* Types, for the capability predicate and the requires-clauses, are the terms of `CppType`
  with their `const` and reference qualification (`QualType`).
* A range without a size (an unbounded generator and the views over it) is embedded by its
  iterator protocol, `Lazy.View`, and consumed by a loop with an iteration budget.
-/

namespace TMath

/-- The exceptions the library throws; `what` is the text given to the constructor. -/
inductive Exn where
  | invalid_argument (what : String)
  deriving DecidableEq, Repr

/-- The call `std::ranges::size(r)` on a sized range. -/
def ranges_size {α : Type} (r : List α) : Nat := r.length

/-- The adaptor `std::ranges::views::transform(f)`: element `i` of the view is `f` of element
`i` of the source. -/
def views_transform {α : Type} {β : Type} (f : α → β) (r : List α) : List β := r.map f

/-- The adaptor `std::ranges::views::zip(a, b)`: pairs by position, as long as the shorter. -/
def views_zip {α : Type} {β : Type} (a : List α) (b : List β) : List (α × β) := a.zip b

namespace detail

/-- The function `detail::check_size_equal` (tmath.hpp:26-33). -/
def check_size_equal {α : Type} {β : Type} (lhs : List α) (rhs : List β) :
    Except Exn Bool :=
  if ranges_size lhs != ranges_size rhs then
    throw (Exn.invalid_argument "Sizes of operands must be equal for element-wise operation")
  else
    pure true

end detail

namespace operators

/-- The macro `ENABLE_MATH_RIGHT_OPERATORS(_op)` (tmath.hpp:40-47): container on the left,
scalar on the right. -/
def ENABLE_MATH_RIGHT_OPERATORS {α : Type} {σ : Type} {β : Type}
    (_op : α → σ → β) (lhs : List α) (rhs : σ) : List β :=
  views_transform (fun x => _op x rhs) lhs

/-- The macro `ENABLE_MATH_LEFT_OPERATORS(_op)` (tmath.hpp:48-55): scalar on the left,
container on the right. -/
def ENABLE_MATH_LEFT_OPERATORS {α : Type} {σ : Type} {β : Type}
    (_op : σ → α → β) (lhs : σ) (rhs : List α) : List β :=
  views_transform (fun x => _op lhs x) rhs

/-- The macro `ENABLE_MATH_BINARY_OPERATORS(_op)` (tmath.hpp:61-74): both operands
math-enabled. -/
def ENABLE_MATH_BINARY_OPERATORS {α : Type} {β : Type} {γ : Type}
    (_op : α → β → γ) (lhs : List α) (rhs : List β) : Except Exn (List γ) := do
  let _ ← detail.check_size_equal lhs rhs
  pure (views_transform (fun pair => _op pair.1 pair.2) (views_zip lhs rhs))

/-- The unary `operator-` (tmath.hpp:88-94); `neg` is `-x` at the element type. -/
def operator_minus {α : Type} {β : Type} (neg : α → β) (lhs : List α) : List β :=
  views_transform (fun x => neg x) lhs

end operators

/-- A value whose static type has `n` levels of math-enabled container around a
non-math-enabled leaf type `α`: depth `0` is a leaf value (`int`, `double`), depth `1` a
`std::vector<α>`, depth `2` a `std::vector<std::vector<α>>`, and so on.  Overload resolution
in the library depends on the static type only through this depth. -/
def Nested (α : Type) : Nat → Type
  | 0 => α
  | n + 1 => List (Nested α n)

namespace tmath

/-- The value of a call of `tmath::foreach` (tmath.hpp:109-120) that compiles.  At depth `0`
the type is not math-enabled and only the unconstrained overload applies: `func(x)`.  At
depth `n + 1` the constrained overload is the more specialised one: a transform view whose
lambda calls `foreach` on each element.  Whether the call compiles depends on where the type
of `func` comes from: see `foreach_compiles` and `foreach_call`. -/
def foreach {α β : Type} : (n : Nat) → Nested α n → (α → β) → Nested β n
  | 0, x, func => func x
  | n + 1, x, func => views_transform (fun ele => foreach n ele func) x

/-- The function `tmath::pow` (tmath.hpp:122-125); `std_pow` is the scalar `std::pow`. -/
def pow {α ε β : Type} (std_pow : α → ε → β) (n : Nat) (lhs : Nested α n) (rhs : ε) :
    Nested β n :=
  foreach n lhs (fun x => std_pow x rhs)

/-- The function `tmath::exp` (tmath.hpp:127-130); `std_exp` is the scalar `std::exp`. -/
def exp {α β : Type} (std_exp : α → β) (n : Nat) (x : Nested α n) : Nested β n :=
  foreach n x (fun x => std_exp x)

/-- The function `tmath::log` (tmath.hpp:132-135); `std_log` is the scalar `std::log`. -/
def log {α β : Type} (std_log : α → β) (n : Nat) (x : Nested α n) : Nested β n :=
  foreach n x (fun x => std_log x)

/-- The function `tmath::log10` (tmath.hpp:137-140); `std_log10` is the scalar
`std::log10`. -/
def log10 {α β : Type} (std_log10 : α → β) (n : Nat) (x : Nested α n) : Nested β n :=
  foreach n x (fun x => std_log10 x)

/-- The function `tmath::sqrt` (tmath.hpp:142-145); `std_sqrt` is the scalar `std::sqrt`. -/
def sqrt {α β : Type} (std_sqrt : α → β) (n : Nat) (x : Nested α n) : Nested β n :=
  foreach n x (fun x => std_sqrt x)

/-- The function `tmath::sin` (tmath.hpp:147-150); `std_sin` is the scalar `std::sin`. -/
def sin {α β : Type} (std_sin : α → β) (n : Nat) (x : Nested α n) : Nested β n :=
  foreach n x (fun x => std_sin x)

/-- The function `tmath::cos` (tmath.hpp:152-155); `std_cos` is the scalar `std::cos`. -/
def cos {α β : Type} (std_cos : α → β) (n : Nat) (x : Nested α n) : Nested β n :=
  foreach n x (fun x => std_cos x)

/-- The function `tmath::tan` (tmath.hpp:157-160); `std_tan` is the scalar `std::tan`. -/
def tan {α β : Type} (std_tan : α → β) (n : Nat) (x : Nested α n) : Nested β n :=
  foreach n x (fun x => std_tan x)

/-- The two overloads of `tmath::foreach`: `container` is the constrained one declared at
tmath.hpp:109, `leaf` the unconstrained one declared at tmath.hpp:116. -/
inductive ForeachOverload where
  | container
  | leaf
  deriving DecidableEq, Repr

/-- The overloads that the unqualified call `foreach(ele, func)` written at tmath.hpp:113
can name.  The container overload is declared above the call, so ordinary lookup finds it.
The leaf overload is declared below the call, at line 116, so only argument-dependent
lookup can find it: it is a candidate exactly when namespace `tmath` is an associated
namespace of the type of `func` (`adl_tmath`), as for the closures that `tmath::pow`,
`tmath::exp`, ... create, and not for a lambda or a function pointer of the caller.  (The
element types considered, arithmetic types and standard containers, bring no `tmath`.) -/
def candidates_in_lambda (adl_tmath : Bool) : List ForeachOverload :=
  if adl_tmath then [ForeachOverload.container, ForeachOverload.leaf]
  else [ForeachOverload.container]

/-- The overloads a call written after both declarations can name: the caller's own
`tmath::foreach(x, func)`, and the calls in `tmath::pow`, `tmath::exp`, ... -/
def candidates_after_declarations : List ForeachOverload :=
  [ForeachOverload.container, ForeachOverload.leaf]

/-- Overload resolution among `candidates` for a first argument of nesting depth `n`: the
container overload is viable only for a math-enabled type (`0 < n`) and is then the more
constrained one; the leaf overload is viable for every type; `none` when no candidate is
viable, which makes the call ill-formed. -/
def resolve (candidates : List ForeachOverload) (n : Nat) : Option ForeachOverload :=
  if 0 < n ∧ ForeachOverload.container ∈ candidates then some ForeachOverload.container
  else if ForeachOverload.leaf ∈ candidates then some ForeachOverload.leaf
  else none

/-- Whether the call at tmath.hpp:113 compiles for an element of nesting depth `n`: the call
resolves, and when it resolves to the container overload the same call inside that
overload compiles for the elements one level down (the return types are deduced, so the
bodies are instantiated). -/
def lambda_call_compiles (adl_tmath : Bool) : Nat → Bool
  | 0 => (resolve (candidates_in_lambda adl_tmath) 0).isSome
  | n + 1 =>
    (resolve (candidates_in_lambda adl_tmath) (n + 1)).isSome && lambda_call_compiles adl_tmath n

/-- Whether the call `tmath::foreach(x, func)`, written after both declarations, compiles for
`x` of nesting depth `n`. -/
def foreach_compiles (adl_tmath : Bool) : Nat → Bool
  | 0 => (resolve candidates_after_declarations 0).isSome
  | n + 1 =>
    (resolve candidates_after_declarations (n + 1)).isSome && lambda_call_compiles adl_tmath n

/-- A callable as `foreach` receives it: the function it computes, and whether namespace
`tmath` is an associated namespace of its type. -/
structure Callable (α β : Type) where
  call : α → β
  adl_tmath : Bool

/-- The call `tmath::foreach(x, func)` as a whole: `none` when the program is ill-formed,
otherwise the value of the call. -/
def foreach_call {α β : Type} (n : Nat) (x : Nested α n) (func : Callable α β) :
    Option (Nested β n) :=
  if foreach_compiles func.adl_tmath n then some (foreach n x func.call) else none

end tmath

/-- Marks a Lean type that stands for a C++ type that is not math-enabled, so that a value
of it is a leaf for `foreach`: an arithmetic type, a string.  No container type is given an
instance. -/
class Leaf (α : Type) : Prop where
  not_math_enabled : True

instance Leaf_Int : Leaf Int := ⟨trivial⟩

instance Leaf_Rat : Leaf ℚ := ⟨trivial⟩

instance Leaf_String : Leaf String := ⟨trivial⟩

/-- The element count of the container reached from `x` by following the indices `path`;
`none` when the path leaves `x` or ends at a leaf. -/
def sizeAt {α : Type} : (n : Nat) → Nested α n → List Nat → Option Nat
  | 0, _, _ => none
  | _ + 1, x, [] => some (ranges_size x)
  | n + 1, x, i :: path =>
    match (show List (Nested α n) from x)[i]? with
    | none => none
    | some ele => sizeAt n ele path

/-- The leaf reached from `x` by following the indices `path`; `none` when the path leaves
`x`, stops at a container, or goes on below a leaf. -/
def leafAt {α : Type} : (n : Nat) → Nested α n → List Nat → Option α
  | 0, x, [] => some x
  | 0, _, _ :: _ => none
  | _ + 1, _, [] => none
  | n + 1, x, i :: path =>
    match (show List (Nested α n) from x)[i]? with
    | none => none
    | some ele => leafAt n ele path

/-- What evaluating `lhs _op rhs` yields for two operands of nesting depth `n`: a plain value
at depth `0`; at depth `n + 1` either a thrown exception or a view, each of whose elements is
what `l _op r` yields one level down when that element is requested. -/
def BinaryResult (γ : Type) : Nat → Type
  | 0 => γ
  | n + 1 => Except Exn (List (BinaryResult γ n))

/-- What evaluating an expression of depth `n` raises, if anything: nothing at depth `0`. -/
def raised {γ : Type} : (n : Nat) → BinaryResult γ n → Option Exn
  | 0, _ => none
  | _ + 1, Except.error e => some e
  | _ + 1, Except.ok _ => none

namespace operators

/-- The expression `lhs _op rhs` for two operands of the same nesting depth, as overload
resolution instantiates it: the scalar operator at depth `0`; at depth `n + 1` the
container-with-container overload, whose lambda's `l _op r` is the same expression at depth
`n`. -/
def binary_op {α β γ : Type} (_op : α → β → γ) :
    (n : Nat) → Nested α n → Nested β n → BinaryResult γ n
  | 0, lhs, rhs => _op lhs rhs
  | n + 1, lhs, rhs => ENABLE_MATH_BINARY_OPERATORS (binary_op _op n) lhs rhs

/-- The expression `lhs _op rhs` for an operand of nesting depth `n` and a scalar: the
scalar operator at depth `0`; at depth `n + 1` the container-with-scalar overload, whose
lambda's `x _op rhs` is the same expression at depth `n`. -/
def right_op {α σ β : Type} (_op : α → σ → β) : (n : Nat) → Nested α n → σ → Nested β n
  | 0, lhs, rhs => _op lhs rhs
  | n + 1, lhs, rhs => ENABLE_MATH_RIGHT_OPERATORS (right_op _op n) lhs rhs

/-- The expression `lhs _op rhs` for a scalar and an operand of nesting depth `n`: the
scalar operator at depth `0`; at depth `n + 1` the scalar-with-container overload, whose
lambda's `lhs _op x` is the same expression at depth `n`. -/
def left_op {α σ β : Type} (_op : σ → α → β) : (n : Nat) → σ → Nested α n → Nested β n
  | 0, lhs, rhs => _op lhs rhs
  | n + 1, lhs, rhs => ENABLE_MATH_LEFT_OPERATORS (left_op _op n) lhs rhs

end operators

/-- The value a 32-bit two's-complement `int` holds for the mathematical value `x`. -/
def wrap_int (x : Int) : Int := (x + 2147483648) % 4294967296 - 2147483648

/-- The `operator+` of `std::string`: concatenation. -/
def string_plus (a b : String) : String := a ++ b

/-- The built-in `a * b` on `int`, wrapping on overflow. -/
def mul_int (a b : Int) : Int := wrap_int (a * b)

/-- The built-in `a + b` on `int`, wrapping on overflow. -/
def add_int (a b : Int) : Int := wrap_int (a + b)

/-! ## The capability predicate over types -/

/-- The unqualified object types the predicate is asked about.  `vector E` is
`std::vector<E>` and `array E N` is `std::array<E, N>`; the constructors from `ref_view` to
`user_view` are class types that model the standard concept `std::ranges::view`; the rest
do not. -/
inductive CppType where
  | arithmetic (name : String)
  | vector (E : CppType)
  | array (E : CppType) (N : Nat)
  | map (K V : CppType)
  | set (K : CppType)
  | string
  | user_struct (name : String)
  | ref_view (R : CppType)
  | owning_view (R : CppType)
  | transform_view (V : CppType)
  | zip_view (V W : CppType)
  | iota_view (W : CppType)
  | take_while_view (V : CppType)
  | filter_view (V : CppType)
  | string_view
  | span (E : CppType)
  | user_view (name : String)
  deriving DecidableEq, Repr

/-- Whether a type is a reference, and of which kind. -/
inductive RefKind where
  | object
  | lvalue_ref
  | rvalue_ref
  deriving DecidableEq, Repr

/-- A type as a template argument can be: an object type, possibly `const`, possibly behind
a reference (`const std::vector<int>&` is `⟨vector int, true, lvalue_ref⟩`). -/
structure QualType where
  base : CppType
  is_const : Bool
  ref : RefKind
  deriving DecidableEq, Repr

/-- The trait `std::decay_t<T>` on these types: the reference and the `const` are removed. -/
def decay_t (T : QualType) : QualType := ⟨T.base, false, RefKind.object⟩

/-- The variable template `enable_math_v<T>` (tmath.hpp:9-16): `false` in general, `true` for
the two partial specialisations, which match the unqualified `std::vector<T>` and
`std::array<T, N>` only. -/
def enable_math_v : QualType → Bool
  | ⟨CppType.vector _, false, RefKind.object⟩ => true
  | ⟨CppType.array _ _, false, RefKind.object⟩ => true
  | _ => false

/-- The standard concept `std::ranges::view<T>` on these types: `T` is an unqualified object
type (a `const` or reference type is not movable) whose class is a view. -/
def ranges_view : QualType → Bool
  | ⟨CppType.ref_view _, false, RefKind.object⟩ => true
  | ⟨CppType.owning_view _, false, RefKind.object⟩ => true
  | ⟨CppType.transform_view _, false, RefKind.object⟩ => true
  | ⟨CppType.zip_view _ _, false, RefKind.object⟩ => true
  | ⟨CppType.iota_view _, false, RefKind.object⟩ => true
  | ⟨CppType.take_while_view _, false, RefKind.object⟩ => true
  | ⟨CppType.filter_view _, false, RefKind.object⟩ => true
  | ⟨CppType.string_view, false, RefKind.object⟩ => true
  | ⟨CppType.span _, false, RefKind.object⟩ => true
  | ⟨CppType.user_view _, false, RefKind.object⟩ => true
  | _ => false

namespace concepts

/-- The concept `concepts::math_arr<T>` (tmath.hpp:19-22). -/
def math_arr (T : QualType) : Bool :=
  enable_math_v (decay_t T) || ranges_view (decay_t T)

end concepts

/-- The three binary overloads each operator macro family declares. -/
inductive Overload where
  | container_scalar
  | scalar_container
  | container_container
  deriving DecidableEq, Repr

namespace operators

/-- The requires-clause of `ENABLE_MATH_RIGHT_OPERATORS` (tmath.hpp:42) for the operand
types `L` (deduced `T`) and `R` (deduced `U`). -/
def requires_RIGHT (L R : QualType) : Bool :=
  concepts.math_arr L && !concepts.math_arr R

/-- The requires-clause of `ENABLE_MATH_LEFT_OPERATORS` (tmath.hpp:50): the template's `T`
is the right operand and `U` the left one. -/
def requires_LEFT (L R : QualType) : Bool :=
  concepts.math_arr R && !concepts.math_arr L

/-- The requires-clause of `ENABLE_MATH_BINARY_OPERATORS` (tmath.hpp:64-65). -/
def requires_BINARY (L R : QualType) : Bool :=
  concepts.math_arr (decay_t L) && concepts.math_arr (decay_t R)

/-- The overloads of one operator whose constraints the operand types `(L, R)` satisfy, in
declaration order. -/
def viable (L R : QualType) : List Overload :=
  (if requires_RIGHT L R then [Overload.container_scalar] else []) ++
  (if requires_LEFT L R then [Overload.scalar_container] else []) ++
  (if requires_BINARY L R then [Overload.container_container] else [])

end operators

/-- The built-in `a / b` on `int`: the quotient truncated toward zero; `none` where the
behaviour is undefined (division by zero, and the overflowing `INT_MIN / -1`). -/
def div_int (a b : Int) : Option Int :=
  if b = 0 ∨ (a = -2147483648 ∧ b = -1) then none else some (Int.tdiv a b)

/-- The built-in `a % b` on `int`: the remainder of the truncated division; `none` where
`a / b` is undefined. -/
def mod_int (a b : Int) : Option Int :=
  if b = 0 ∨ (a = -2147483648 ∧ b = -1) then none else some (Int.tmod a b)

/-! ## Views as iterators, for unbounded sources -/

namespace Lazy

/-- A view as the standard library presents it to a loop: an iterator type with `begin`,
the test `it == end`, `*it` and `++it`.  The test and the dereference also return the
elements of the underlying generator that they evaluate, in order. -/
structure View (α : Type) where
  iterator : Type
  begin : iterator
  is_end : iterator → Bool × List Int
  deref : iterator → α × List Int
  incr : iterator → iterator

/-- The generator `std::views::iota(b)` without an upper bound: the end is never reached, and
reading the element at `i` evaluates the source element `i`. -/
def views_iota (b : Int) : View Int where
  iterator := Int
  begin := b
  is_end := fun _ => (false, [])
  deref := fun i => (i, [i])
  incr := fun i => i + 1

/-- The adaptor `std::ranges::views::transform(f)` on iterators: `*it` is `f` of the
underlying `*it`, computed at each dereference. -/
def views_transform {α β : Type} (f : α → β) (v : View α) : View β where
  iterator := v.iterator
  begin := v.begin
  is_end := v.is_end
  deref := fun it => (f (v.deref it).1, (v.deref it).2)
  incr := v.incr

/-- The adaptor `std::ranges::views::take_while(pred)`: `it == end` holds when the underlying
end is reached or `pred(*it)` fails. -/
def views_take_while {α : Type} (pred : α → Bool) (v : View α) : View α where
  iterator := v.iterator
  begin := v.begin
  is_end := fun it =>
    if (v.is_end it).1 then (true, (v.is_end it).2)
    else (!pred (v.deref it).1, (v.is_end it).2 ++ (v.deref it).2)
  deref := v.deref
  incr := v.incr

/-- The macro `ENABLE_MATH_LEFT_OPERATORS(_op)` (tmath.hpp:48-55) on a view given by its
iterators. -/
def ENABLE_MATH_LEFT_OPERATORS {α σ β : Type} (_op : σ → α → β) (lhs : σ) (rhs : View α) :
    View β :=
  views_transform (fun x => _op lhs x) rhs

/-- The loop `for (auto x : v) out.push_back(x);` started at `it`, run for at most `fuel`
iterations: `none` when the end is not reached within `fuel` iterations, otherwise the
elements produced and the source elements evaluated on the way. -/
def consume {α : Type} (v : View α) : Nat → v.iterator → Option (List α × List Int)
  | 0, _ => none
  | fuel + 1, it =>
    if (v.is_end it).1 then some ([], (v.is_end it).2)
    else
      match consume v fuel (v.incr it) with
      | none => none
      | some rest =>
        some ((v.deref it).1 :: rest.1, (v.is_end it).2 ++ (v.deref it).2 ++ rest.2)

/-- The loop over the whole of `v`, from `v.begin`, with a budget of `fuel` iterations. -/
def collect {α : Type} (v : View α) (fuel : Nat) : Option (List α × List Int) :=
  consume v fuel v.begin

end Lazy

open operators

/-! ## Helper lemmas -/

theorem check_size_equal_of_eq {α β : Type} (lhs : List α) (rhs : List β)
    (h : ranges_size lhs = ranges_size rhs) : detail.check_size_equal lhs rhs = .ok true := by
  simp [detail.check_size_equal, h]
  rfl

theorem check_size_equal_of_ne {α β : Type} (lhs : List α) (rhs : List β)
    (h : ranges_size lhs ≠ ranges_size rhs) :
    detail.check_size_equal lhs rhs =
      .error (.invalid_argument "Sizes of operands must be equal for element-wise operation") := by
  simp [detail.check_size_equal, h]
  rfl

theorem binary_of_size_eq {α β γ : Type} (_op : α → β → γ) (lhs : List α) (rhs : List β)
    (h : ranges_size lhs = ranges_size rhs) :
    ENABLE_MATH_BINARY_OPERATORS _op lhs rhs =
      .ok ((lhs.zip rhs).map (fun pair => _op pair.1 pair.2)) := by
  simp only [ENABLE_MATH_BINARY_OPERATORS, check_size_equal_of_eq lhs rhs h, views_transform,
    views_zip]
  rfl

theorem binary_of_size_ne {α β γ : Type} (_op : α → β → γ) (lhs : List α) (rhs : List β)
    (h : ranges_size lhs ≠ ranges_size rhs) :
    ENABLE_MATH_BINARY_OPERATORS _op lhs rhs =
      .error (.invalid_argument "Sizes of operands must be equal for element-wise operation") := by
  simp only [ENABLE_MATH_BINARY_OPERATORS, check_size_equal_of_ne lhs rhs h]
  rfl

/-! ## Container-with-container operators -/

/-- C1: a container-with-container operator throws exactly when the operands' sizes differ;
what it throws is `std::invalid_argument` with the text "Sizes of operands must be equal for
element-wise operation"; and whenever it returns a view, the view is as long as each operand
(nothing is truncated or padded). -/
theorem C1_binary_throws_iff_sizes_differ {α β γ : Type} (_op : α → β → γ)
    (a : List α) (b : List β) :
    ((∃ e, ENABLE_MATH_BINARY_OPERATORS _op a b = .error e) ↔ ranges_size a ≠ ranges_size b) ∧
    (∀ e, ENABLE_MATH_BINARY_OPERATORS _op a b = .error e →
      e = .invalid_argument "Sizes of operands must be equal for element-wise operation") ∧
    (∀ v, ENABLE_MATH_BINARY_OPERATORS _op a b = .ok v →
      ranges_size v = ranges_size a ∧ ranges_size v = ranges_size b) := by
  by_cases h : ranges_size a = ranges_size b
  · rw [binary_of_size_eq _op a b h]
    refine ⟨?_, ?_, ?_⟩
    · constructor
      · rintro ⟨e, he⟩
        cases he
      · intro hne
        exact absurd h hne
    · intro e he
      cases he
    · intro v hv
      cases hv
      simp only [ranges_size] at h ⊢
      simp [h]
  · rw [binary_of_size_ne _op a b h]
    refine ⟨?_, ?_, ?_⟩
    · constructor
      · intro _
        exact h
      · intro _
        exact ⟨_, rfl⟩
    · intro e he
      cases he
      rfl
    · intro v hv
      cases hv

/-- The test of main.cpp:73-80 for C1: a vector of 5 times an array of 3 throws the message,
for any element operator. -/
theorem C1_witness :
    ENABLE_MATH_BINARY_OPERATORS (fun (l r : Int) => l * r) [1, 2, 3, 4, 5] [1, 2, 3] =
      .error (.invalid_argument "Sizes of operands must be equal for element-wise operation") := by
  have h := (C1_binary_throws_iff_sizes_differ (fun (l r : Int) => l * r)
    [1, 2, 3, 4, 5] [1, 2, 3]).1.2 (by decide)
  obtain ⟨e, he⟩ := h
  rw [he, (C1_binary_throws_iff_sizes_differ (fun (l r : Int) => l * r)
    [1, 2, 3, 4, 5] [1, 2, 3]).2.1 e he]

/-- C2: for operands of equal size `n` the operator returns a view of exactly `n` elements
whose `i`-th element is `a[i] _op b[i]`; two empty operands give an empty view. -/
theorem C2_binary_elementwise {α β γ : Type} (_op : α → β → γ) (a : List α) (b : List β)
    (n : Nat) (ha : ranges_size a = n) (hb : ranges_size b = n) :
    (∃ v, ENABLE_MATH_BINARY_OPERATORS _op a b = .ok v ∧ ranges_size v = n ∧
      ∀ (i : Nat) (hia : i < a.length) (hib : i < b.length),
        v[i]? = some (_op (a[i]) (b[i]))) ∧
    ENABLE_MATH_BINARY_OPERATORS _op ([] : List α) ([] : List β) = .ok [] := by
  refine ⟨⟨_, binary_of_size_eq _op a b (ha.trans hb.symm), ?_, ?_⟩, rfl⟩
  · simp only [ranges_size] at ha hb ⊢
    simp [ha, hb]
  · intro i hia hib
    simp [List.getElem?_eq_getElem, hia, hib]

/-- The test of main.cpp:81-84 for C2: a vector of 5 times an array of 5. -/
theorem C2_witness :
    ∃ v, ENABLE_MATH_BINARY_OPERATORS (fun (l r : Int) => l * r)
        [1, 2, 3, 4, 5] [1, 2, 3, 4, 5] = .ok v ∧ ranges_size v = 5 ∧
      v[0]? = some 1 ∧ v[1]? = some 4 ∧ v[2]? = some 9 ∧ v[3]? = some 16 ∧ v[4]? = some 25 := by
  obtain ⟨v, hv, hn, hel⟩ := (C2_binary_elementwise (fun (l r : Int) => l * r)
    [1, 2, 3, 4, 5] [1, 2, 3, 4, 5] 5 (by decide) (by decide)).1
  exact ⟨v, hv, hn, hel 0 (by decide) (by decide), hel 1 (by decide) (by decide),
    hel 2 (by decide) (by decide), hel 3 (by decide) (by decide),
    hel 4 (by decide) (by decide)⟩

theorem binary_op_succ {α β γ : Type} (_op : α → β → γ) (n : Nat)
    (lhs : List (Nested α n)) (rhs : List (Nested β n)) :
    binary_op _op (n + 1) lhs rhs = ENABLE_MATH_BINARY_OPERATORS (binary_op _op n) lhs rhs :=
  rfl

theorem binary_ok_getElem? {α β γ : Type} (_op : α → β → γ) (lhs : List α) (rhs : List β)
    (v : List γ) (hv : ENABLE_MATH_BINARY_OPERATORS _op lhs rhs = .ok v) (i : Nat)
    (hl : i < lhs.length) (hr : i < rhs.length) :
    v[i]? = some (_op (lhs[i]) (rhs[i])) := by
  by_cases h : ranges_size lhs = ranges_size rhs
  · rw [binary_of_size_eq _op lhs rhs h] at hv
    cases hv
    simp [List.getElem?_eq_getElem, hl, hr]
  · rw [binary_of_size_ne _op lhs rhs h] at hv
    cases hv

theorem raised_binary_op {α β γ : Type} (_op : α → β → γ) (n : Nat)
    (lhs : List (Nested α n)) (rhs : List (Nested β n)) :
    raised (n + 1) (binary_op _op (n + 1) lhs rhs) =
      if ranges_size lhs ≠ ranges_size rhs then
        some (Exn.invalid_argument "Sizes of operands must be equal for element-wise operation")
      else none := by
  by_cases h : ranges_size lhs = ranges_size rhs
  · have e := (binary_op_succ _op n lhs rhs).trans (binary_of_size_eq _ lhs rhs h)
    rw [e]
    simp [h, raised]
  · have e := (binary_op_succ _op n lhs rhs).trans (binary_of_size_ne _ lhs rhs h)
    rw [e]
    simp [h, raised]

/-- C10 (as stated, refuted): for the nested operands `a = {{1,2}}` and `b = {{1}}` the
outer sizes agree, so `a + b` returns a view; requesting its element `0` runs the inner
`{1,2} + {1}` and raises the shape-mismatch error. -/
theorem C10_counterexample :
    binary_op (fun (l r : Int) => l + r) 2
        (show List (List Int) from [[1, 2]]) (show List (List Int) from [[1]]) =
      Except.ok [Except.error
        (Exn.invalid_argument "Sizes of operands must be equal for element-wise operation")] :=
  rfl

/-- C10 (amended): a container-with-container operator compares the sizes of its own two
operands when it is applied; if they differ it throws there and returns no view, otherwise
it returns a view whose element `i` is `a[i] _op b[i]`.  When the elements are scalars no
element request raises.  When the elements are themselves containers, the request for
element `i` runs the inner operator, and raises the shape-mismatch error exactly when
`size(a[i]) != size(b[i])`. -/
theorem C10_size_check_at_application {α β γ : Type} (_op : α → β → γ) :
    (∀ (n : Nat) (lhs : List (Nested α n)) (rhs : List (Nested β n)),
      (ranges_size lhs ≠ ranges_size rhs →
        binary_op _op (n + 1) lhs rhs = Except.error
          (Exn.invalid_argument "Sizes of operands must be equal for element-wise operation")) ∧
      (ranges_size lhs = ranges_size rhs →
        ∃ v, binary_op _op (n + 1) lhs rhs = Except.ok v ∧ ranges_size v = ranges_size lhs ∧
          ∀ (i : Nat) (hl : i < lhs.length) (hr : i < rhs.length),
            v[i]? = some (binary_op _op n (lhs[i]) (rhs[i])))) ∧
    (∀ (lhs : List α) (rhs : List β) (v : List γ),
      binary_op _op 1 lhs rhs = Except.ok v → ∀ e ∈ v, raised 0 e = none) ∧
    (∀ (n : Nat) (lhs : List (List (Nested α n))) (rhs : List (List (Nested β n)))
        (v : List (BinaryResult γ (n + 1))),
      binary_op _op (n + 2) lhs rhs = Except.ok v →
      ∀ (i : Nat) (hl : i < lhs.length) (hr : i < rhs.length),
        (v[i]?).map (raised (n + 1)) =
          some (if ranges_size (lhs[i]) ≠ ranges_size (rhs[i]) then
            some (Exn.invalid_argument
              "Sizes of operands must be equal for element-wise operation")
          else none)) := by
  refine ⟨?_, ?_, ?_⟩
  · intro n lhs rhs
    constructor
    · intro h
      rw [binary_op_succ, binary_of_size_ne _ lhs rhs h]
    · intro h
      refine ⟨_, (binary_op_succ _op n lhs rhs).trans (binary_of_size_eq _ lhs rhs h), ?_, ?_⟩
      · simp only [ranges_size] at h ⊢
        simp [h]
      · intro i hl hr
        simp [List.getElem?_eq_getElem, hl, hr]
  · intro lhs rhs v _ e _
    rfl
  · intro n lhs rhs v hv i hl hr
    have hv2 : ENABLE_MATH_BINARY_OPERATORS (binary_op _op (n + 1)) lhs rhs = Except.ok v := hv
    rw [binary_ok_getElem? (binary_op _op (n + 1)) lhs rhs v hv2 i hl hr, Option.map_some']
    rw [raised_binary_op]
    rfl

/-- An instance of C10 (amended): `{{1,2},{3}} + {{1,2},{3,4}}` returns a view of two
elements; element `0` is a view, element `1` raises when requested. -/
theorem C10_witness :
    ∃ v, binary_op (fun (l r : Int) => l + r) 2
        (show List (List Int) from [[1, 2], [3]])
        (show List (List Int) from [[1, 2], [3, 4]]) = Except.ok v ∧
      (v[0]?).map (raised 1) = some none ∧
      (v[1]?).map (raised 1) = some (some (Exn.invalid_argument
        "Sizes of operands must be equal for element-wise operation")) := by
  have h := C10_size_check_at_application (fun (l r : Int) => l + r)
  obtain ⟨v, hv, _, _⟩ := (h.1 1 (show List (List Int) from [[1, 2], [3]])
    (show List (List Int) from [[1, 2], [3, 4]])).2 (by decide)
  exact ⟨v, hv,
    h.2.2 0 (show List (List Int) from [[1, 2], [3]])
      (show List (List Int) from [[1, 2], [3, 4]]) v hv 0 (by decide) (by decide),
    h.2.2 0 (show List (List Int) from [[1, 2], [3]])
      (show List (List Int) from [[1, 2], [3, 4]]) v hv 1 (by decide) (by decide)⟩

/-! ## Scalar broadcast and negation -/

/-- C3: the scalar-on-the-left form `s _op xs` is a view as long as `xs` whose `i`-th element
is `s _op xs[i]`, the scalar being the left argument. -/
theorem C3_left_scalar_is_left_argument {α σ β : Type} (_op : σ → α → β) (s : σ)
    (xs : List α) :
    ranges_size (ENABLE_MATH_LEFT_OPERATORS _op s xs) = ranges_size xs ∧
    ∀ (i : Nat) (hi : i < xs.length),
      (ENABLE_MATH_LEFT_OPERATORS _op s xs)[i]? = some (_op s (xs[i])) := by
  constructor
  · simp [ENABLE_MATH_LEFT_OPERATORS, views_transform, ranges_size]
  · intro i hi
    simp [ENABLE_MATH_LEFT_OPERATORS, views_transform, List.getElem?_eq_getElem, hi]

/-- The tests of main.cpp:118-120 and 95-97 for C3: `2 - {1,2,3,4,5}` over the integers and
`2 / {1,2,3,4,5}` over the rationals. -/
theorem C3_witness :
    ENABLE_MATH_LEFT_OPERATORS (fun (l x : Int) => l - x) 2 [1, 2, 3, 4, 5] =
      [1, 0, -1, -2, -3] ∧
    ENABLE_MATH_LEFT_OPERATORS (fun (l x : ℚ) => l / x) 2 [1, 2, 3, 4, 5] =
      [2, 1, 2 / 3, 1 / 2, 2 / 5] ∧
    (ENABLE_MATH_LEFT_OPERATORS (fun (l x : Int) => l - x) 2 [1, 2, 3, 4, 5])[4]? =
      some (2 - 5) := by
  refine ⟨by decide, ?_, (C3_left_scalar_is_left_argument (fun (l x : Int) => l - x) 2
    [1, 2, 3, 4, 5]).2 4 (by decide)⟩
  simp only [ENABLE_MATH_LEFT_OPERATORS, views_transform, List.map]
  norm_num

/-- C4: the container-on-the-left form `xs _op s` has no failing path (it is a total function
returning the view, with no size check in its body), and the view has exactly `size(xs)`
elements, the `i`-th being `xs[i] _op s`; this includes the empty container. -/
theorem C4_right_broadcast {α σ β : Type} (_op : α → σ → β) (xs : List α) (s : σ) :
    ranges_size (ENABLE_MATH_RIGHT_OPERATORS _op xs s) = ranges_size xs ∧
    (∀ (i : Nat) (hi : i < xs.length),
      (ENABLE_MATH_RIGHT_OPERATORS _op xs s)[i]? = some (_op (xs[i]) s)) ∧
    ENABLE_MATH_RIGHT_OPERATORS _op ([] : List α) s = [] := by
  refine ⟨?_, ?_, rfl⟩
  · simp [ENABLE_MATH_RIGHT_OPERATORS, views_transform, ranges_size]
  · intro i hi
    simp [ENABLE_MATH_RIGHT_OPERATORS, views_transform, List.getElem?_eq_getElem, hi]

/-- The test of main.cpp:36-41 for C4: `{1,2,3} * 4`. -/
theorem C4_witness :
    ENABLE_MATH_RIGHT_OPERATORS (fun (x r : Int) => x * r) [1, 2, 3] 4 = [4, 8, 12] ∧
    (ENABLE_MATH_RIGHT_OPERATORS (fun (x r : Int) => x * r) [1, 2, 3] 4)[2]? =
      some (3 * 4) :=
  ⟨by decide, (C4_right_broadcast (fun (x r : Int) => x * r) [1, 2, 3] 4).2.1 2 (by decide)⟩

/-- C9: unary negation has no failing path and no size check; `-xs` is a view of exactly
`size(xs)` elements whose `i`-th element is `-xs[i]`. -/
theorem C9_unary_minus {α β : Type} (neg : α → β) (xs : List α) :
    ranges_size (operator_minus neg xs) = ranges_size xs ∧
    (∀ (i : Nat) (hi : i < xs.length), (operator_minus neg xs)[i]? = some (neg (xs[i]))) ∧
    operator_minus neg ([] : List α) = [] := by
  refine ⟨?_, ?_, rfl⟩
  · simp [operator_minus, views_transform, ranges_size]
  · intro i hi
    simp [operator_minus, views_transform, List.getElem?_eq_getElem, hi]

/-- The test of main.cpp:122-124 for C9: `-{1,2,3,4,5}`. -/
theorem C9_witness :
    operator_minus (fun (x : Int) => -x) [1, 2, 3, 4, 5] = [-1, -2, -3, -4, -5] ∧
    (operator_minus (fun (x : Int) => -x) [1, 2, 3, 4, 5])[0]? = some (-1) :=
  ⟨by decide, (C9_unary_minus (fun (x : Int) => -x) [1, 2, 3, 4, 5]).2.1 0 (by decide)⟩

theorem right_getElem? {α σ β : Type} (_op : α → σ → β) (xs : List α) (s : σ) (i : Nat)
    (hi : i < xs.length) :
    (ENABLE_MATH_RIGHT_OPERATORS _op xs s)[i]? = some (_op (xs[i]) s) := by
  simp [ENABLE_MATH_RIGHT_OPERATORS, views_transform, List.getElem?_eq_getElem, hi]

theorem right_op_eq_left_op {α σ β : Type} (opR : α → σ → β) (opL : σ → α → β)
    (h : ∀ x s, opR x s = opL s x) :
    ∀ (n : Nat) (m : Nested α n) (s : σ), right_op opR n m s = left_op opL n s m
  | 0, m, s => h m s
  | n + 1, m, s => by
    have ih := right_op_eq_left_op opR opL h n
    show List.map (fun x => right_op opR n x s) m = List.map (fun x => left_op opL n s x) m
    exact List.map_congr_left (fun x _ => ih x s)

/-- C8 (as stated, refuted): with `std::string` elements, whose `+` is concatenation,
`std::vector<std::string>{"a"} + std::string("b")` is `{"ab"}` and
`std::string("b") + std::vector<std::string>{"a"}` is `{"ba"}`. -/
theorem C8_counterexample :
    ENABLE_MATH_RIGHT_OPERATORS string_plus ["a"] "b" = ["ab"] ∧
    ENABLE_MATH_LEFT_OPERATORS string_plus "b" ["a"] = ["ba"] ∧
    ENABLE_MATH_RIGHT_OPERATORS string_plus ["a"] "b" ≠
      ENABLE_MATH_LEFT_OPERATORS string_plus "b" ["a"] := by
  decide

/-- C8 (amended): `c op s` and `s op c` always have the same length, and they are the same
sequence exactly when `x op s == s op x` for every element `x` of `c`; this is so, at every
nesting depth, when the element operator commutes with the scalar, in particular for every
element type whose `*` (respectively `+`) is commutative. -/
theorem C8_broadcast_sides {α σ β : Type} (opR : α → σ → β) (opL : σ → α → β)
    (xs : List α) (s : σ) :
    ranges_size (ENABLE_MATH_RIGHT_OPERATORS opR xs s) =
      ranges_size (ENABLE_MATH_LEFT_OPERATORS opL s xs) ∧
    (ENABLE_MATH_RIGHT_OPERATORS opR xs s = ENABLE_MATH_LEFT_OPERATORS opL s xs ↔
      ∀ x ∈ xs, opR x s = opL s x) ∧
    ((∀ x t, opR x t = opL t x) →
      ∀ (n : Nat) (m : Nested α n), right_op opR n m s = left_op opL n s m) ∧
    (∀ {γ : Type} [CommMagma γ] (ys : List γ) (t : γ),
      ENABLE_MATH_RIGHT_OPERATORS (fun x r => x * r) ys t =
        ENABLE_MATH_LEFT_OPERATORS (fun l x => l * x) t ys) ∧
    (∀ {γ : Type} [AddCommMagma γ] (ys : List γ) (t : γ),
      ENABLE_MATH_RIGHT_OPERATORS (fun x r => x + r) ys t =
        ENABLE_MATH_LEFT_OPERATORS (fun l x => l + x) t ys) := by
  refine ⟨?_, ?_, ?_, ?_, ?_⟩
  · simp [ENABLE_MATH_RIGHT_OPERATORS, ENABLE_MATH_LEFT_OPERATORS, views_transform,
      ranges_size]
  · simp only [ENABLE_MATH_RIGHT_OPERATORS, ENABLE_MATH_LEFT_OPERATORS, views_transform]
    exact List.map_inj_left
  · intro h n m
    exact right_op_eq_left_op opR opL h n m s
  · intro γ _ ys t
    exact right_op_eq_left_op (fun (x r : γ) => x * r) (fun l x => l * x)
      (fun x r => mul_comm x r) 1 ys t
  · intro γ _ ys t
    exact right_op_eq_left_op (fun (x r : γ) => x + r) (fun l x => l + x)
      (fun x r => add_comm x r) 1 ys t

/-- The tests of main.cpp:108-112 for C8: `{1,2,3,4,5} + 2` and `2 + {1,2,3,4,5}` are both
`{3,4,5,6,7}`. -/
theorem C8_witness :
    ENABLE_MATH_RIGHT_OPERATORS (fun (x r : Int) => x + r) [1, 2, 3, 4, 5] 2 =
      [3, 4, 5, 6, 7] ∧
    ENABLE_MATH_RIGHT_OPERATORS (fun (x r : Int) => x + r) [1, 2, 3, 4, 5] 2 =
      ENABLE_MATH_LEFT_OPERATORS (fun (l x : Int) => l + x) 2 [1, 2, 3, 4, 5] :=
  ⟨by decide,
    (C8_broadcast_sides (fun (x r : Int) => x + r) (fun (l x : Int) => l + x)
      [1, 2, 3, 4, 5] 2).2.2.2.2 [1, 2, 3, 4, 5] 2⟩

/-! ## The recursive applier -/

theorem sizeAt_foreach {α β : Type} (func : α → β) :
    ∀ (n : Nat) (m : Nested α n) (path : List Nat),
      sizeAt n (tmath.foreach n m func) path = sizeAt n m path
  | 0, _, _ => rfl
  | n + 1, m, [] => by
    show some (List.length (List.map _ m)) = some (List.length m)
    rw [List.length_map]
  | n + 1, m, i :: path => by
    have ih := sizeAt_foreach func n
    simp only [sizeAt, tmath.foreach, views_transform, List.getElem?_map]
    cases h : (show List (Nested α n) from m)[i]? with
    | none => simp [h]
    | some ele => simp [h, ih]

theorem leafAt_foreach {α β : Type} (func : α → β) :
    ∀ (n : Nat) (m : Nested α n) (path : List Nat),
      leafAt n (tmath.foreach n m func) path = (leafAt n m path).map func
  | 0, _, [] => rfl
  | 0, _, _ :: _ => rfl
  | _ + 1, _, [] => rfl
  | n + 1, m, i :: path => by
    have ih := leafAt_foreach func n
    simp only [leafAt, tmath.foreach, views_transform, List.getElem?_map]
    cases h : (show List (Nested α n) from m)[i]? with
    | none => simp [h]
    | some ele => simp [h, ih]

theorem leafAt_cons {α : Type} (n : Nat) (x : List (Nested α n)) (i : Nat) (path : List Nat)
    (hi : i < x.length) : leafAt (n + 1) x (i :: path) = leafAt n (x[i]) path := by
  have h : x[i]? = some (x[i]) := List.getElem?_eq_getElem hi
  show (match x[i]? with
    | none => none
    | some ele => leafAt n ele path) = leafAt n (x[i]) path
  rw [h]

theorem lambda_call_compiles_eq (adl_tmath : Bool) :
    ∀ n : Nat, tmath.lambda_call_compiles adl_tmath n = adl_tmath
  | 0 => by cases adl_tmath <;> rfl
  | n + 1 => by
    have ih := lambda_call_compiles_eq adl_tmath n
    cases adl_tmath
    · rw [tmath.lambda_call_compiles, ih, Bool.and_false]
    · rw [tmath.lambda_call_compiles, ih, Bool.and_true]
      simp [tmath.resolve, tmath.candidates_in_lambda]

theorem foreach_compiles_succ (adl_tmath : Bool) (n : Nat) :
    tmath.foreach_compiles adl_tmath (n + 1) = adl_tmath := by
  rw [tmath.foreach_compiles, lambda_call_compiles_eq]
  simp [tmath.resolve, tmath.candidates_after_declarations]

theorem foreach_call_of_compiles {α β : Type} (n : Nat) (x : Nested α n)
    (func : tmath.Callable α β) (h : tmath.foreach_compiles func.adl_tmath n = true) :
    tmath.foreach_call n x func = some (tmath.foreach n x func.call) := by
  rw [tmath.foreach_call, if_pos h]

/-- Where the call compiles, `foreach(m, func)` has the shape of `m` (the same element count
at every position) and the leaf at every position is `func` of the leaf of `m` there. -/
theorem foreach_call_shape_and_leaves {α β : Type} (n : Nat) (m : Nested α n)
    (func : tmath.Callable α β) (h : tmath.foreach_compiles func.adl_tmath n = true)
    (path : List Nat) :
    ∃ y, tmath.foreach_call n m func = some y ∧ sizeAt n y path = sizeAt n m path ∧
      leafAt n y path = (leafAt n m path).map func.call :=
  ⟨_, foreach_call_of_compiles n m func h, sizeAt_foreach func.call n m path,
    leafAt_foreach func.call n m path⟩

/-- C5 (defect of the code): the call `foreach(ele, func)` in the lambda at tmath.hpp:113 is
written above the declaration of the leaf overload (tmath.hpp:116), so for a leaf element
and a function of the caller (no `tmath` among the associated namespaces) no candidate is
viable.  `foreach` with the caller's squaring function on `{1,2,3}` and on
`{{1,2},{3,4},{5,6}}` is ill-formed, where the claim gives the squares; with the same
function in a closure of namespace `tmath` the call gives `{{1,4},{9,16},{25,36}}`.  On a
container of any depth the call compiles exactly when `tmath` is associated. -/
theorem C5_foreach_rejects_caller_function :
    tmath.resolve (tmath.candidates_in_lambda false) 0 = none ∧
    tmath.foreach_call 1 (show List Int from [1, 2, 3])
      (tmath.Callable.mk (fun (v : Int) => v * v) false) = none ∧
    tmath.foreach_call 2 (show List (List Int) from [[1, 2], [3, 4], [5, 6]])
      (tmath.Callable.mk (fun (v : Int) => v * v) false) = none ∧
    tmath.foreach_call 2 (show List (List Int) from [[1, 2], [3, 4], [5, 6]])
      (tmath.Callable.mk (fun (v : Int) => v * v) true) =
        some (show List (List Int) from [[1, 4], [9, 16], [25, 36]]) ∧
    (∀ (adl_tmath : Bool) (n : Nat), tmath.foreach_compiles adl_tmath (n + 1) = adl_tmath) :=
  ⟨rfl, rfl, rfl, rfl, foreach_compiles_succ⟩

/-- C6: on a value whose type is not math-enabled (nesting depth `0`) `foreach(x, func)` is
`func(x)`, so `tmath::pow` on a plain scalar is the scalar power function. -/
theorem C6_foreach_leaf {α ε β : Type} (x : α) (func : α → β) (std_pow : α → ε → β) (e : ε) :
    tmath.foreach 0 x func = func x ∧ tmath.pow std_pow 0 x e = std_pow x e :=
  ⟨rfl, rfl⟩

/-- The test of main.cpp:148 for C6: `tmath::pow(2, 3) == 8`, with exact integer power as
the scalar function. -/
theorem C6_witness : tmath.pow (fun (x : Int) (e : Nat) => x ^ e) 0 (2 : Int) 3 = (8 : Int) :=
  ((C6_foreach_leaf (2 : Int) (fun x => x) (fun (x : Int) (e : Nat) => x ^ e) 3).2).trans
    (show (2 : Int) ^ 3 = 8 by norm_num)

/-! ## The math function library -/

theorem foreach_one_getElem? {α β : Type} (func : α → β) (xs : List α) (i : Nat)
    (hi : i < xs.length) :
    (show List β from tmath.foreach 1 xs func)[i]? = some (func (xs[i])) := by
  show (List.map (fun ele => func ele) xs)[i]? = some (func (xs[i]))
  simp [List.getElem?_eq_getElem, hi]

theorem foreach_one_size {α β : Type} (func : α → β) (xs : List α) :
    ranges_size (show List β from tmath.foreach 1 xs func) = ranges_size xs := by
  show (List.map (fun ele => func ele) xs).length = xs.length
  simp

/-- C11: each of `exp`, `log`, `log10`, `sqrt`, `sin`, `cos`, `tan` is `foreach` with the
scalar function, and `pow(x, e)` is `foreach` with `v -> std_pow(v, e)`, the one exponent `e`
being used at every leaf of every depth.  So on a nested container the shape is kept and
every leaf is the scalar function of the source leaf, and on a flat container of length `n`
the result has length `n` with `i`-th element `g(x[i])`. -/
theorem C11_math_functions_are_foreach {α ε β : Type} (std_pow : α → ε → β)
    (std_exp std_log std_log10 std_sqrt std_sin std_cos std_tan : α → β) (e : ε)
    (n : Nat) (x : Nested α n) (path : List Nat) (xs : List α) :
    ∀ p ∈ [(tmath.exp std_exp, std_exp), (tmath.log std_log, std_log),
        (tmath.log10 std_log10, std_log10), (tmath.sqrt std_sqrt, std_sqrt),
        (tmath.sin std_sin, std_sin), (tmath.cos std_cos, std_cos),
        (tmath.tan std_tan, std_tan),
        ((fun k y => tmath.pow std_pow k y e), (fun v => std_pow v e))],
      p.1 n x = tmath.foreach n x p.2 ∧
      sizeAt n (p.1 n x) path = sizeAt n x path ∧
      leafAt n (p.1 n x) path = (leafAt n x path).map p.2 ∧
      ranges_size (show List β from p.1 1 xs) = ranges_size xs ∧
      ∀ (i : Nat) (hi : i < xs.length),
        (show List β from p.1 1 xs)[i]? = some (p.2 (xs[i])) := by
  intro p hp
  have key : ∀ (g : α → β),
      tmath.foreach n x g = tmath.foreach n x g ∧
      sizeAt n (tmath.foreach n x g) path = sizeAt n x path ∧
      leafAt n (tmath.foreach n x g) path = (leafAt n x path).map g ∧
      ranges_size (show List β from tmath.foreach 1 xs g) = ranges_size xs ∧
      ∀ (i : Nat) (hi : i < xs.length),
        (show List β from tmath.foreach 1 xs g)[i]? = some (g (xs[i])) :=
    fun g => ⟨rfl, sizeAt_foreach g n x path, leafAt_foreach g n x path,
      foreach_one_size g xs, foreach_one_getElem? g xs⟩
  simp only [List.mem_cons, List.mem_singleton, List.not_mem_nil, or_false] at hp
  rcases hp with h | h | h | h | h | h | h | h <;> subst h
  · exact key std_exp
  · exact key std_log
  · exact key std_log10
  · exact key std_sqrt
  · exact key std_sin
  · exact key std_cos
  · exact key std_tan
  · exact key (fun v => std_pow v e)

/-- The test of main.cpp:153-157 for C11, with exact integer power as the scalar function:
`pow({1,2,3,4,5}, 2)` is `{1,4,9,16,25}`; and on `{{1,2},{3}}` the leaf at `[1][0]` is
`3^2`. -/
theorem C11_witness :
    tmath.pow (fun (v : Int) (k : Nat) => v ^ k) 1 (show List Int from [1, 2, 3, 4, 5]) 2 =
      (show List Int from [1, 4, 9, 16, 25]) ∧
    leafAt 2 (tmath.pow (fun (v : Int) (k : Nat) => v ^ k) 2
      (show List (List Int) from [[1, 2], [3]]) 2) [1, 0] = some 9 := by
  have h := C11_math_functions_are_foreach (fun (v : Int) (k : Nat) => v ^ k)
    id id id id id id id 2 2 (show List (List Int) from [[1, 2], [3]]) [1, 0] []
    ((fun k y => tmath.pow (fun (v : Int) (k : Nat) => v ^ k) k y 2), (fun v => v ^ 2))
    (by simp)
  refine ⟨?_, h.2.2.1.trans ?_⟩
  · show List.map (fun v : Int => v ^ 2) [1, 2, 3, 4, 5] = [1, 4, 9, 16, 25]
    norm_num
  · show Option.map (fun v : Int => v ^ 2) (some 3) = some 9
    norm_num

/-! ## Nested broadcast and views as operands -/

theorem right_op_eq_foreach {α σ β : Type} (_op : α → σ → β) (s : σ) :
    ∀ (n : Nat) (m : Nested α n), right_op _op n m s = tmath.foreach n m (fun x => _op x s)
  | 0, _ => rfl
  | n + 1, m => by
    have ih := right_op_eq_foreach _op s n
    show List.map (fun x => right_op _op n x s) m =
      List.map (fun ele => tmath.foreach n ele (fun x => _op x s)) m
    exact List.map_congr_left (fun x _ => ih x)

theorem left_op_eq_foreach {α σ β : Type} (_op : σ → α → β) (s : σ) :
    ∀ (n : Nat) (m : Nested α n), left_op _op n s m = tmath.foreach n m (fun x => _op s x)
  | 0, _ => rfl
  | n + 1, m => by
    have ih := left_op_eq_foreach _op s n
    show List.map (fun x => left_op _op n s x) m =
      List.map (fun ele => tmath.foreach n ele (fun x => _op s x)) m
    exact List.map_congr_left (fun x _ => ih x)

/-- C12: a scalar broadcast over a nested container descends into the inner containers.
At any depth `n`, `m _op s` has the element count of `m` at every position and its leaf at
every position is `leaf _op s`; likewise `s _op m` has leaves `s _op leaf`.  For depth `2`
the position `[i, j]` is `(m _op s)[i][j]`. -/
theorem C12_nested_broadcast {α σ β : Type} (opR : α → σ → β) (opL : σ → α → β) (n : Nat)
    (m : Nested α n) (s : σ) (path : List Nat) :
    sizeAt n (right_op opR n m s) path = sizeAt n m path ∧
    leafAt n (right_op opR n m s) path = (leafAt n m path).map (fun x => opR x s) ∧
    sizeAt n (left_op opL n s m) path = sizeAt n m path ∧
    leafAt n (left_op opL n s m) path = (leafAt n m path).map (fun x => opL s x) ∧
    (∀ (mm : List (List α)) (i j : Nat) (hi : i < mm.length) (hj : j < (mm[i]).length),
      leafAt 2 (right_op opR 2 mm s) [i, j] = some (opR ((mm[i])[j]) s) ∧
      leafAt 2 (left_op opL 2 s mm) [i, j] = some (opL s ((mm[i])[j]))) := by
  have hleaf : ∀ (mm : List (List α)) (i j : Nat) (hi : i < mm.length)
      (hj : j < (mm[i]).length), leafAt 2 mm [i, j] = some ((mm[i])[j]) := by
    intro mm i j hi hj
    exact (leafAt_cons 1 mm i [j] hi).trans ((leafAt_cons 0 (mm[i]) j [] hj).trans rfl)
  refine ⟨?_, ?_, ?_, ?_, ?_⟩
  · rw [right_op_eq_foreach]
    exact sizeAt_foreach _ n m path
  · rw [right_op_eq_foreach]
    exact leafAt_foreach _ n m path
  · rw [left_op_eq_foreach]
    exact sizeAt_foreach _ n m path
  · rw [left_op_eq_foreach]
    exact leafAt_foreach _ n m path
  · intro mm i j hi hj
    rw [right_op_eq_foreach, left_op_eq_foreach, leafAt_foreach, leafAt_foreach,
      hleaf mm i j hi hj]
    exact ⟨rfl, rfl⟩

/-- The test of main.cpp:43-52 for C12: `{{1,2},{3,4},{5,6}} * 2` is
`{{2,4},{6,8},{10,12}}`, and its element `[2][1]` is `6 * 2`. -/
theorem C12_witness :
    right_op (fun (x r : Int) => x * r) 2
        (show List (List Int) from [[1, 2], [3, 4], [5, 6]]) 2 =
      (show List (List Int) from [[2, 4], [6, 8], [10, 12]]) ∧
    leafAt 2 (right_op (fun (x r : Int) => x * r) 2
        (show List (List Int) from [[1, 2], [3, 4], [5, 6]]) 2) [2, 1] = some 12 :=
  ⟨rfl, (C12_nested_broadcast (fun (x r : Int) => x * r) (fun (l x : Int) => l * x) 2
    (show List (List Int) from [[1, 2], [3, 4], [5, 6]]) 2 [2, 1]).2.1⟩

/-- C13: the view `s * c` reports the element count of `c` and is a valid operand of a
container-with-container operator: `a - s * c` (parsed as `a - (s * c)`) throws exactly when
`size(a) != size(c)`, and otherwise is a view whose `i`-th element is `a[i] - (s * c[i])`. -/
theorem C13_broadcast_result_as_operand {α σ β γ : Type} (sub : α → β → γ)
    (mul : σ → α → β) (a : List α) (s : σ) (xs : List α) :
    ranges_size (ENABLE_MATH_LEFT_OPERATORS mul s xs) = ranges_size xs ∧
    ((∃ e, ENABLE_MATH_BINARY_OPERATORS sub a (ENABLE_MATH_LEFT_OPERATORS mul s xs) =
        Except.error e) ↔ ranges_size a ≠ ranges_size xs) ∧
    (ranges_size a = ranges_size xs →
      ∃ v, ENABLE_MATH_BINARY_OPERATORS sub a (ENABLE_MATH_LEFT_OPERATORS mul s xs) =
          Except.ok v ∧ ranges_size v = ranges_size a ∧
        ∀ (i : Nat) (ha : i < a.length) (hx : i < xs.length),
          v[i]? = some (sub (a[i]) (mul s (xs[i])))) := by
  have hsize : ranges_size (ENABLE_MATH_LEFT_OPERATORS mul s xs) = ranges_size xs := by
    simp [ENABLE_MATH_LEFT_OPERATORS, views_transform, ranges_size]
  refine ⟨hsize, ?_, ?_⟩
  · by_cases h : ranges_size a = ranges_size xs
    · rw [binary_of_size_eq sub a _ (h.trans hsize.symm)]
      constructor
      · rintro ⟨e, he⟩
        cases he
      · intro hne
        exact absurd h hne
    · rw [binary_of_size_ne sub a _ (fun h2 => h (h2.trans hsize))]
      exact ⟨fun _ => h, fun _ => ⟨_, rfl⟩⟩
  · intro h
    refine ⟨_, binary_of_size_eq sub a _ (h.trans hsize.symm), ?_, ?_⟩
    · simp only [ranges_size] at h ⊢
      simp [ENABLE_MATH_LEFT_OPERATORS, views_transform, h]
    · intro i ha hx
      simp [ENABLE_MATH_LEFT_OPERATORS, views_transform, List.getElem?_eq_getElem, ha, hx]

/-- The test of main.cpp:134-136 for C13, over the rationals:
`{1.5,2.5,3.5,4.5,5.5} - 2 * {1,2,3,4,5}` has size 5 and element `1` equal to
`2.5 - 2 * 2`. -/
theorem C13_witness :
    ∃ v, ENABLE_MATH_BINARY_OPERATORS (fun (l r : ℚ) => l - r)
        [3 / 2, 5 / 2, 7 / 2, 9 / 2, 11 / 2]
        (ENABLE_MATH_LEFT_OPERATORS (fun (l x : ℚ) => l * x) 2 [1, 2, 3, 4, 5]) =
          Except.ok v ∧ ranges_size v = 5 ∧ v[1]? = some (5 / 2 - 2 * 2) := by
  obtain ⟨v, hv, hn, hel⟩ := (C13_broadcast_result_as_operand (fun (l r : ℚ) => l - r)
    (fun (l x : ℚ) => l * x) [3 / 2, 5 / 2, 7 / 2, 9 / 2, 11 / 2] 2 [1, 2, 3, 4, 5]).2.2 rfl
  exact ⟨v, hv, hn, hel 1 (by decide) (by decide)⟩

/-! ## The text of the error -/

/-- C17 (as stated, refuted): what `{1,2,3,4,5} * {1,2,3}` throws carries a text that is not
"sizes of operands must be equal for element-wise operation": the text begins with a
capital `S`. -/
theorem C17_counterexample :
    ∃ what, ENABLE_MATH_BINARY_OPERATORS (fun (l r : Int) => l * r) [1, 2, 3, 4, 5] [1, 2, 3] =
        Except.error (Exn.invalid_argument what) ∧
      what ≠ "sizes of operands must be equal for element-wise operation" :=
  ⟨"Sizes of operands must be equal for element-wise operation", rfl, by decide⟩

/-- C17 (amended): the error thrown by a container-with-container operator on operands of
different sizes carries the fixed text "Sizes of operands must be equal for element-wise
operation", whatever the operands and the operator. -/
theorem C17_error_text {α β γ : Type} (_op : α → β → γ) (a : List α) (b : List β)
    (h : ranges_size a ≠ ranges_size b) :
    ∃ what, ENABLE_MATH_BINARY_OPERATORS _op a b = Except.error (Exn.invalid_argument what) ∧
      what = "Sizes of operands must be equal for element-wise operation" ∧
      what.data.head? = some 'S' :=
  ⟨_, binary_of_size_ne _op a b h, rfl, by decide⟩

/-- The test of main.cpp:73-80 for C17: the text thrown by a vector of 5 times an array
of 3. -/
theorem C17_witness :
    ∃ what, ENABLE_MATH_BINARY_OPERATORS (fun (l r : Int) => l * r) [1, 2, 3, 4, 5] [1, 2, 3] =
        Except.error (Exn.invalid_argument what) ∧
      what = "Sizes of operands must be equal for element-wise operation" ∧
      what.data.head? = some 'S' :=
  C17_error_text (fun (l r : Int) => l * r) [1, 2, 3, 4, 5] [1, 2, 3] (by decide)

/-! ## Fusion of `foreach` -/

theorem foreach_foreach {α β γ : Type} (f : α → β) (g : β → γ) :
    ∀ (n : Nat) (x : Nested α n),
      tmath.foreach n (tmath.foreach n x f) g = tmath.foreach n x (fun v => g (f v))
  | 0, _ => rfl
  | n + 1, x => by
    have ih := foreach_foreach f g n
    show List.map (fun ele => tmath.foreach n ele g)
        (List.map (fun ele => tmath.foreach n ele f) x) =
      List.map (fun ele => tmath.foreach n ele (fun v => g (f v))) x
    rw [List.map_map]
    exact List.map_congr_left (fun ele _ => ih ele)

theorem foreach_id {α : Type} :
    ∀ (n : Nat) (x : Nested α n), tmath.foreach n x (fun v => v) = x
  | 0, _ => rfl
  | n + 1, x => by
    have ih := @foreach_id α n
    show List.map (fun ele => tmath.foreach n ele (fun v => v)) x = x
    rw [List.map_congr_left (fun ele _ => ih ele)]
    exact List.map_id x

/-- C18 (as stated, refuted): take `x = {1,2}`, `f(v) = std::vector<int>{v, v}` and the
generic `g(y) = 7` (closures of namespace `tmath`, so that the calls compile).  The static
type of `foreach(x, f)` has nesting depth `2`, so the outer `foreach` descends into each
`f(v)`: `foreach(foreach(x, f), g)` is `{{7,7},{7,7}}`, while `foreach(x, v -> g(f(v)))` is
`{7,7}`.  The first has a container of size `2` at position `[0]` where `x` has a leaf. -/
theorem C18_counterexample :
    tmath.foreach_call 1 (show List Int from [1, 2])
        (tmath.Callable.mk (fun (v : Int) => [v, v]) true) =
      some (show List (List Int) from [[1, 1], [2, 2]]) ∧
    tmath.foreach_call 2 (show List (List Int) from [[1, 1], [2, 2]])
        (tmath.Callable.mk (fun (_ : Int) => (7 : Int)) true) =
      some (show List (List Int) from [[7, 7], [7, 7]]) ∧
    tmath.foreach_call 1 (show List Int from [1, 2])
        (tmath.Callable.mk (fun (v : Int) => (fun (_ : List Int) => (7 : Int)) [v, v]) true) =
      some (show List Int from [7, 7]) ∧
    sizeAt 2 (show List (List Int) from [[7, 7], [7, 7]]) [0] = some 2 ∧
    sizeAt 1 (show List Int from [1, 2]) [0] = none ∧
    leafAt 2 (show List (List Int) from [[7, 7], [7, 7]]) [0] = none ∧
    leafAt 1 (show List Int from [7, 7]) [0] = some 7 :=
  ⟨rfl, rfl, rfl, rfl, rfl, rfl, rfl⟩

/-- C18 (amended): for a container `x` of any nesting depth and functions `f` and `g` whose
results are not math-enabled, whenever the calls compile, `foreach(foreach(x, f), g)` and
`foreach(x, v -> g(f(v)))` are the same: the result has the element count of `x` at every
position and its leaf at every position is `g(f(leaf))`; and `foreach` with the identity
function gives back `x`. -/
theorem C18_foreach_fusion {α β γ : Type} [Leaf α] [Leaf β] [Leaf γ]
    (f : tmath.Callable α β) (g : tmath.Callable β γ) (gf : tmath.Callable α γ)
    (ident : tmath.Callable α α)
    (hgf : ∀ v, gf.call v = g.call (f.call v)) (hident : ∀ v, ident.call v = v)
    (n : Nat) (x : Nested α n) (path : List Nat)
    (hf : tmath.foreach_compiles f.adl_tmath n = true)
    (hg : tmath.foreach_compiles g.adl_tmath n = true)
    (hc : tmath.foreach_compiles gf.adl_tmath n = true)
    (hi : tmath.foreach_compiles ident.adl_tmath n = true) :
    ∃ y z, tmath.foreach_call n x f = some y ∧ tmath.foreach_call n y g = some z ∧
      tmath.foreach_call n x gf = some z ∧
      sizeAt n z path = sizeAt n x path ∧
      leafAt n z path = (leafAt n x path).map (fun v => g.call (f.call v)) ∧
      tmath.foreach_call n x ident = some x := by
  have e1 : gf.call = fun v => g.call (f.call v) := funext hgf
  have e2 : ident.call = fun v => v := funext hident
  refine ⟨_, _, foreach_call_of_compiles n x f hf, foreach_call_of_compiles n _ g hg, ?_,
    ?_, ?_, ?_⟩
  · rw [foreach_call_of_compiles n x gf hc, e1, foreach_foreach]
  · rw [foreach_foreach]
    exact sizeAt_foreach _ n x path
  · rw [foreach_foreach]
    exact leafAt_foreach _ n x path
  · rw [foreach_call_of_compiles n x ident hi, e2, foreach_id]

/-- An instance of C18 (amended): negating and then adding one, over `{{1,2},{3}}`, with
closures of namespace `tmath`. -/
theorem C18_witness :
    ∃ y z, tmath.foreach_call 2 (show List (List Int) from [[1, 2], [3]])
        (tmath.Callable.mk (fun (v : Int) => -v) true) = some y ∧
      tmath.foreach_call 2 y (tmath.Callable.mk (fun (v : Int) => 1 + v) true) = some z ∧
      tmath.foreach_call 2 (show List (List Int) from [[1, 2], [3]])
        (tmath.Callable.mk (fun (v : Int) => 1 + -v) true) = some z ∧
      leafAt 2 z [1, 0] = some (1 + -3) := by
  obtain ⟨y, z, h1, h2, h3, _, h5, _⟩ := C18_foreach_fusion
    (tmath.Callable.mk (fun (v : Int) => -v) true)
    (tmath.Callable.mk (fun (v : Int) => 1 + v) true)
    (tmath.Callable.mk (fun (v : Int) => 1 + -v) true)
    (tmath.Callable.mk (fun (v : Int) => v) true)
    (fun _ => rfl) (fun _ => rfl) 2 (show List (List Int) from [[1, 2], [3]]) [1, 0]
    rfl rfl rfl rfl
  exact ⟨y, z, h1, h2, h3, h5⟩

/-! ## The capability predicate and overload selection -/

theorem enable_math_v_decay (T : QualType) :
    enable_math_v (decay_t T) = true ↔
      (∃ E, decay_t T = ⟨CppType.vector E, false, RefKind.object⟩) ∨
      (∃ E N, decay_t T = ⟨CppType.array E N, false, RefKind.object⟩) := by
  obtain ⟨base, k, r⟩ := T
  cases base <;> simp [decay_t, enable_math_v]

/-- C15: `math_arr<T>` holds exactly when `T`, after decay, is a `std::vector<E>`, a
`std::array<E, N>`, or a view type; and it is false for arithmetic types, associative
containers, `std::string` and user structs that are no views, whatever their `const` and
reference qualification. -/
theorem C15_math_arr_characterised (T : QualType) :
    (concepts.math_arr T = true ↔
      (∃ E, decay_t T = ⟨CppType.vector E, false, RefKind.object⟩) ∨
      (∃ E N, decay_t T = ⟨CppType.array E N, false, RefKind.object⟩) ∨
      ranges_view (decay_t T) = true) ∧
    (∀ (name : String) (k : Bool) (r : RefKind) (K V : CppType),
      concepts.math_arr ⟨CppType.arithmetic name, k, r⟩ = false ∧
      concepts.math_arr ⟨CppType.map K V, k, r⟩ = false ∧
      concepts.math_arr ⟨CppType.set K, k, r⟩ = false ∧
      concepts.math_arr ⟨CppType.string, k, r⟩ = false ∧
      concepts.math_arr ⟨CppType.user_struct name, k, r⟩ = false) := by
  constructor
  · rw [concepts.math_arr, Bool.or_eq_true, enable_math_v_decay, or_assoc]
  · intro name k r K V
    exact ⟨rfl, rfl, rfl, rfl, rfl⟩

/-- The static assertions of main.cpp:20-25 for C15, and some types that are not
math-enabled. -/
theorem C15_witness :
    concepts.math_arr ⟨CppType.vector (CppType.arithmetic "int"), false, RefKind.object⟩ =
      true ∧
    concepts.math_arr ⟨CppType.array (CppType.arithmetic "int") 3, false, RefKind.object⟩ =
      true ∧
    concepts.math_arr ⟨CppType.owning_view (CppType.vector (CppType.arithmetic "int")),
      false, RefKind.object⟩ = true ∧
    concepts.math_arr ⟨CppType.vector (CppType.arithmetic "int"), true,
      RefKind.lvalue_ref⟩ = true ∧
    concepts.math_arr ⟨CppType.arithmetic "int", false, RefKind.object⟩ = false ∧
    concepts.math_arr ⟨CppType.string, true, RefKind.lvalue_ref⟩ = false :=
  ⟨(C15_math_arr_characterised _).1.2 (Or.inl ⟨_, rfl⟩),
    (C15_math_arr_characterised _).1.2 (Or.inr (Or.inl ⟨_, _, rfl⟩)),
    (C15_math_arr_characterised _).1.2 (Or.inr (Or.inr rfl)),
    (C15_math_arr_characterised _).1.2 (Or.inl ⟨_, rfl⟩),
    ((C15_math_arr_characterised ⟨CppType.string, false, RefKind.object⟩).2
      "int" false RefKind.object CppType.string CppType.string).1,
    ((C15_math_arr_characterised ⟨CppType.string, false, RefKind.object⟩).2
      "int" true RefKind.lvalue_ref CppType.string CppType.string).2.2.2.1⟩

/-- C16: for operand types `(L, R)` an overload of a binary operator of the library is
viable exactly when at least one of `L`, `R` is math-enabled, and then exactly one is:
container-with-scalar when only `L` is math-enabled, scalar-with-container when only `R`
is, container-with-container when both are; when neither is, none is viable.  The three
requires-clauses are the same for each of `*`, `+`, `-`, `/`, `%`. -/
theorem C16_overload_selection (L R : QualType) :
    (viable L R ≠ [] ↔ (concepts.math_arr L = true ∨ concepts.math_arr R = true)) ∧
    (concepts.math_arr L = true ∧ concepts.math_arr R = false →
      viable L R = [Overload.container_scalar]) ∧
    (concepts.math_arr L = false ∧ concepts.math_arr R = true →
      viable L R = [Overload.scalar_container]) ∧
    (concepts.math_arr L = true ∧ concepts.math_arr R = true →
      viable L R = [Overload.container_container]) ∧
    (concepts.math_arr L = false ∧ concepts.math_arr R = false → viable L R = []) := by
  have hL : concepts.math_arr (decay_t L) = concepts.math_arr L := rfl
  have hR : concepts.math_arr (decay_t R) = concepts.math_arr R := rfl
  by_cases hl : concepts.math_arr L = true <;> by_cases hr : concepts.math_arr R = true <;>
    simp only [Bool.not_eq_true] at hl hr <;>
    simp [viable, requires_RIGHT, requires_LEFT, requires_BINARY, hL, hR, hl, hr]

/-- Instances of C16: `std::vector<int>& * int` selects container-with-scalar,
`int * std::vector<int>&` scalar-with-container, `std::vector<int>& * std::array<int, 5>&`
container-with-container, and `int * int` none. -/
theorem C16_witness :
    viable ⟨CppType.vector (CppType.arithmetic "int"), false, RefKind.lvalue_ref⟩
      ⟨CppType.arithmetic "int", false, RefKind.object⟩ = [Overload.container_scalar] ∧
    viable ⟨CppType.arithmetic "int", false, RefKind.object⟩
      ⟨CppType.vector (CppType.arithmetic "int"), false, RefKind.lvalue_ref⟩ =
        [Overload.scalar_container] ∧
    viable ⟨CppType.vector (CppType.arithmetic "int"), false, RefKind.lvalue_ref⟩
      ⟨CppType.array (CppType.arithmetic "int") 5, false, RefKind.lvalue_ref⟩ =
        [Overload.container_container] ∧
    viable ⟨CppType.arithmetic "int", false, RefKind.object⟩
      ⟨CppType.arithmetic "int", false, RefKind.object⟩ = [] :=
  ⟨(C16_overload_selection _ _).2.1 ⟨rfl, rfl⟩,
    (C16_overload_selection _ _).2.2.1 ⟨rfl, rfl⟩,
    (C16_overload_selection _ _).2.2.2.1 ⟨rfl, rfl⟩,
    (C16_overload_selection _ _).2.2.2.2 ⟨rfl, rfl⟩⟩

/-! ## Laziness over an unbounded generator -/

theorem consume_succ {α : Type} (v : Lazy.View α) :
    ∀ (fuel : Nat) (it : v.iterator) (r : List α × List Int),
      Lazy.consume v fuel it = some r → Lazy.consume v (fuel + 1) it = some r
  | 0, _, _, h => by simp [Lazy.consume] at h
  | fuel + 1, it, r, h => by
    have ih := consume_succ v fuel (v.incr it)
    rw [Lazy.consume] at h ⊢
    by_cases he : (v.is_end it).1 = true
    · rw [if_pos he] at h ⊢
      exact h
    · rw [if_neg he] at h ⊢
      cases hrest : Lazy.consume v fuel (v.incr it) with
      | none => rw [hrest] at h; cases h
      | some rest =>
        rw [hrest] at h
        rw [ih rest hrest]
        exact h

theorem consume_mono {α : Type} (v : Lazy.View α) (k : Nat) (it : v.iterator)
    (r : List α × List Int) (h : Lazy.consume v k it = some r) :
    ∀ fuel, k ≤ fuel → Lazy.consume v fuel it = some r := by
  intro fuel hle
  induction hle with
  | refl => exact h
  | step _ ih => exact consume_succ v _ it r ih

theorem consume_transform {α β : Type} (f : α → β) (v : Lazy.View α) :
    ∀ (fuel : Nat) (it : v.iterator),
      Lazy.consume (Lazy.views_transform f v) fuel it =
        (Lazy.consume v fuel it).map (fun r => (views_transform f r.1, r.2))
  | 0, _ => rfl
  | fuel + 1, it => by
    have ih := consume_transform f v fuel (v.incr it)
    rw [Lazy.consume, Lazy.consume]
    show (if (v.is_end it).1 = true then some ([], (v.is_end it).2)
      else match Lazy.consume (Lazy.views_transform f v) fuel (v.incr it) with
        | none => none
        | some rest =>
          some (f (v.deref it).1 :: rest.1, (v.is_end it).2 ++ (v.deref it).2 ++ rest.2)) = _
    rw [ih]
    by_cases he : (v.is_end it).1 = true
    · simp [he, views_transform]
    · cases hrest : Lazy.consume v fuel (v.incr it) <;> simp [he, hrest, views_transform]

theorem consume_left_iota_none {σ β : Type} (_op : σ → Int → β) (lhs : σ) (b : Int) :
    ∀ (fuel : Nat) (it : Int),
      Lazy.consume (Lazy.ENABLE_MATH_LEFT_OPERATORS _op lhs (Lazy.views_iota b)) fuel it = none
  | 0, _ => rfl
  | fuel + 1, it => by
    have ih := consume_left_iota_none _op lhs b fuel (it + 1)
    rw [Lazy.consume]
    show (match Lazy.consume (Lazy.ENABLE_MATH_LEFT_OPERATORS _op lhs (Lazy.views_iota b))
        fuel (it + 1) with
      | none => none
      | some rest => some (_op lhs it :: rest.1, [] ++ [it] ++ rest.2)) = none
    rw [ih]

/-- C14: the chain `3 * iota(1, ∞) | take_while(x < 30)` is lazy.  The loop over it ends
(any budget of at least ten iterations gives the same result), it produces exactly
`3, 6, ..., 27`, and the source elements it evaluates are `1` to `10` and none beyond the
tenth; whereas looping over `3 * iota(1, ∞)` itself never ends, and the iterator form of the
broadcast agrees with the list form on whatever a loop collects. -/
theorem C14_lazy_broadcast :
    (∀ fuel, 10 ≤ fuel →
      Lazy.collect
        (Lazy.views_take_while (fun x => decide (x < 30))
          (Lazy.ENABLE_MATH_LEFT_OPERATORS (fun (l x : Int) => l * x) 3 (Lazy.views_iota 1)))
        fuel =
      some ([3, 6, 9, 12, 15, 18, 21, 24, 27],
        [1, 1, 2, 2, 3, 3, 4, 4, 5, 5, 6, 6, 7, 7, 8, 8, 9, 9, 10])) ∧
    (∀ e ∈ ([1, 1, 2, 2, 3, 3, 4, 4, 5, 5, 6, 6, 7, 7, 8, 8, 9, 9, 10] : List Int),
      e ≤ 10) ∧
    (∀ fuel, Lazy.collect
        (Lazy.ENABLE_MATH_LEFT_OPERATORS (fun (l x : Int) => l * x) 3 (Lazy.views_iota 1))
        fuel = none) ∧
    (∀ {α σ β : Type} (_op : σ → α → β) (lhs : σ) (v : Lazy.View α) (fuel : Nat),
      Lazy.collect (Lazy.ENABLE_MATH_LEFT_OPERATORS _op lhs v) fuel =
        (Lazy.collect v fuel).map
          (fun r => (operators.ENABLE_MATH_LEFT_OPERATORS _op lhs r.1, r.2))) := by
  refine ⟨?_, by decide, fun fuel => consume_left_iota_none _ 3 1 fuel 1, ?_⟩
  · have h10 : Lazy.consume
        (Lazy.views_take_while (fun x => decide (x < 30))
          (Lazy.ENABLE_MATH_LEFT_OPERATORS (fun (l x : Int) => l * x) 3 (Lazy.views_iota 1)))
        10 (1 : Int) =
      some ([3, 6, 9, 12, 15, 18, 21, 24, 27],
        [1, 1, 2, 2, 3, 3, 4, 4, 5, 5, 6, 6, 7, 7, 8, 8, 9, 9, 10]) := by
      decide
    exact consume_mono _ 10 _ _ h10
  · intro α σ β _op lhs v fuel
    exact consume_transform (fun x => _op lhs x) v fuel v.begin

/-- An instance of C14: with a budget of a thousand iterations the loop still stops after
the tenth source element. -/
theorem C14_witness :
    Lazy.collect
        (Lazy.views_take_while (fun x => decide (x < 30))
          (Lazy.ENABLE_MATH_LEFT_OPERATORS (fun (l x : Int) => l * x) 3 (Lazy.views_iota 1)))
        1000 =
      some ([3, 6, 9, 12, 15, 18, 21, 24, 27],
        [1, 1, 2, 2, 3, 3, 4, 4, 5, 5, 6, 6, 7, 7, 8, 8, 9, 9, 10]) :=
  C14_lazy_broadcast.1 1000 (by decide)

/-! ## Integer division and remainder -/

theorem tmod_facts (x s : Int) (hs : s ≠ 0) :
    (0 ≤ x → 0 ≤ Int.tmod x s ∧ Int.tmod x s ≤ x) ∧
    (x ≤ 0 → Int.tmod x s ≤ 0 ∧ x ≤ Int.tmod x s) ∧
    (Int.tmod x s < s ∨ Int.tmod x s < -s) ∧ (-s < Int.tmod x s ∨ s < Int.tmod x s) := by
  have habs : (Int.tmod x s).natAbs < s.natAbs ∧ (Int.tmod x s).natAbs ≤ x.natAbs := by
    rcases x with m | m <;> rcases s with n | n
    · simp only [Int.tmod, Int.ofNat_eq_coe, Int.natAbs_ofNat]
      have : 0 < n := by
        rcases n with _ | n
        · exact absurd rfl hs
        · exact Nat.succ_pos n
      exact ⟨Nat.mod_lt _ this, Nat.mod_le _ _⟩
    · simp only [Int.tmod, Int.ofNat_eq_coe, Int.natAbs_ofNat, Int.natAbs_negSucc]
      exact ⟨Nat.mod_lt _ (Nat.succ_pos n), Nat.mod_le _ _⟩
    · simp only [Int.tmod, Int.ofNat_eq_coe, Int.natAbs_neg, Int.natAbs_ofNat,
        Int.natAbs_negSucc]
      have : 0 < n := by
        rcases n with _ | n
        · exact absurd rfl hs
        · exact Nat.succ_pos n
      exact ⟨Nat.mod_lt _ this, Nat.mod_le _ _⟩
    · simp only [Int.tmod, Int.ofNat_eq_coe, Int.natAbs_neg, Int.natAbs_ofNat,
        Int.natAbs_negSucc]
      exact ⟨Nat.mod_lt _ (Nat.succ_pos n), Nat.mod_le _ _⟩
  have hpos : 0 ≤ x → 0 ≤ Int.tmod x s := Int.tmod_nonneg s
  have hneg : x ≤ 0 → Int.tmod x s ≤ 0 := by
    intro hx
    have h1 : Int.tmod (-x) s = -Int.tmod x s := by
      rw [Int.tmod_def, Int.tmod_def, Int.neg_tdiv]
      ring
    have h2 := Int.tmod_nonneg s (show 0 ≤ -x by omega)
    omega
  omega

theorem tdiv_natAbs_le (x s : Int) : (Int.tdiv x s).natAbs ≤ x.natAbs := by
  rw [Int.natAbs_tdiv]
  exact Nat.div_le_self _ _

/-- C19: for `int` elements in range and an `int` scalar `s != 0`, the pair
`(INT_MIN, -1)` excluded, `c / s` and `c % s` are defined at index `i`; with `q` and `r`
their values there, `q * s + r == c[i]` (exactly, and in the wrapping `int` arithmetic),
`q` is the quotient truncated toward zero (`q * s` lies between `0` and `c[i]`, less than
`|s|` away from `c[i]`), and `r` has the sign of `c[i]`. -/
theorem C19_div_mod_identity (xs : List Int) (s : Int) (i : Nat) (hi : i < xs.length)
    (hx : -2147483648 ≤ xs[i] ∧ xs[i] < 2147483648)
    (hs : -2147483648 ≤ s ∧ s < 2147483648) (hs0 : s ≠ 0)
    (hov : ¬ (xs[i] = -2147483648 ∧ s = -1)) :
    ∃ q r : Int,
      (ENABLE_MATH_RIGHT_OPERATORS div_int xs s)[i]? = some (some q) ∧
      (ENABLE_MATH_RIGHT_OPERATORS mod_int xs s)[i]? = some (some r) ∧
      q * s + r = xs[i] ∧
      add_int (mul_int q s) r = xs[i] ∧
      (-2147483648 ≤ q ∧ q < 2147483648) ∧
      (0 ≤ xs[i] → 0 ≤ q * s ∧ q * s ≤ xs[i] ∧ 0 ≤ r) ∧
      (xs[i] ≤ 0 → xs[i] ≤ q * s ∧ q * s ≤ 0 ∧ r ≤ 0) ∧
      r.natAbs < s.natAbs := by
  have hcond : ¬ (s = 0 ∨ (xs[i] = -2147483648 ∧ s = -1)) := by
    rintro (h | h)
    · exact hs0 h
    · exact hov h
  have hsum : Int.tdiv (xs[i]) s * s + Int.tmod (xs[i]) s = xs[i] := Int.tdiv_add_tmod' _ _
  obtain ⟨hpos, hneg, hlt, hgt⟩ := tmod_facts (xs[i]) s hs0
  have hq := tdiv_natAbs_le (xs[i]) s
  refine ⟨Int.tdiv (xs[i]) s, Int.tmod (xs[i]) s, ?_, ?_, hsum, ?_, ?_, ?_, ?_, ?_⟩
  · rw [right_getElem? div_int xs s i hi, div_int, if_neg hcond]
  · rw [right_getElem? mod_int xs s i hi, mod_int, if_neg hcond]
  · have hp : Int.tdiv (xs[i]) s * s = xs[i] - Int.tmod (xs[i]) s := by omega
    simp only [add_int, mul_int, wrap_int, hp]
    omega
  · constructor
    · omega
    · by_contra hge
      have hq2 : Int.tdiv (xs[i]) s = 2147483648 := by omega
      rw [hq2] at hsum
      omega
  · intro h0
    have := hpos h0
    omega
  · intro h0
    have := hneg h0
    omega
  · omega

/-- The test of main.cpp:139-144 for C19: `{1,2,3,4,5} % 2` is `{1,0,1,0,1}`, and at index
`2` the quotient `1` and the remainder `1` give back `3`; also `-7 / 2` is `-3` with
remainder `-1`. -/
theorem C19_witness :
    ENABLE_MATH_RIGHT_OPERATORS mod_int [1, 2, 3, 4, 5] 2 =
      [some 1, some 0, some 1, some 0, some 1] ∧
    ENABLE_MATH_RIGHT_OPERATORS div_int [-7] 2 = [some (-3)] ∧
    ENABLE_MATH_RIGHT_OPERATORS mod_int [-7] 2 = [some (-1)] ∧
    ∃ q r : Int,
      (ENABLE_MATH_RIGHT_OPERATORS div_int [1, 2, 3, 4, 5] 2)[2]? = some (some q) ∧
      (ENABLE_MATH_RIGHT_OPERATORS mod_int [1, 2, 3, 4, 5] 2)[2]? = some (some r) ∧
      q * 2 + r = 3 := by
  refine ⟨by decide, by decide, by decide, ?_⟩
  obtain ⟨q, r, h1, h2, h3, _⟩ := C19_div_mod_identity [1, 2, 3, 4, 5] 2 2 (by decide)
    (by decide) (by decide) (by decide) (by decide)
  exact ⟨q, r, h1, h2, h3⟩

end TMath
